import Mathlib

set_option maxRecDepth 200000

/-!
Verification development for the optical-gate-access repository.

The repository implements an optical on/off-keyed link: a sender flashes a
screen white/black to transmit one byte (START, 8 MSB-first bits, END), and a
receiver samples camera brightness, calibrates a baseline, and decodes the
byte with a tick-driven state machine.

JavaScript numbers (timestamps from performance.now, brightness averages) are
modelled as rationals (ℚ); bit values and decoded bytes, which are nonnegative
integers in the source, are modelled as Nat.  Callbacks (onResponseReceived /
onError / onComplete / onProgress) are modelled as events emitted by the
state-transition functions.
-/

namespace OpticalGate

/-! ## Exact rational arithmetic

The JavaScript arithmetic on brightness values and timestamps is modelled
exactly over ℚ.  The standard `+ - * /` on ℚ are `@[irreducible]` in this
toolchain, which blocks kernel evaluation of concrete runs, so the model uses
the following wrappers, each proved equal to the corresponding standard
operation (`qadd_eq` etc.); symbolic proofs rewrite through those bridges. -/

/-- Rational addition (unfoldable). -/
def qadd (a b : ℚ) : ℚ := mkRat (a.num * b.den + b.num * a.den) (a.den * b.den)

/-- Rational subtraction (unfoldable). -/
def qsub (a b : ℚ) : ℚ := mkRat (a.num * b.den - b.num * a.den) (a.den * b.den)

/-- Rational multiplication (unfoldable). -/
def qmul (a b : ℚ) : ℚ :=
  Rat.normalize (a.num * b.num) (a.den * b.den)
    (by simp [a.den_nz, b.den_nz, Nat.mul_ne_zero])

/-- Rational inverse (unfoldable). -/
def qinv (a : ℚ) : ℚ := Rat.divInt a.den a.num

/-- Rational division (unfoldable). -/
def qdiv (a b : ℚ) : ℚ := qmul a (qinv b)

/-- Embedding of a natural number count into ℚ (unfoldable). -/
def qofNat (n : Nat) : ℚ := mkRat (Int.ofNat n) 1

theorem qadd_eq (a b : ℚ) : qadd a b = a + b := (Rat.add_def' a b).symm

theorem qsub_eq (a b : ℚ) : qsub a b = a - b := (Rat.sub_def' a b).symm

theorem qmul_eq (a b : ℚ) : qmul a b = a * b := (Rat.mul_def a b).symm

theorem qinv_eq (a : ℚ) : qinv a = a⁻¹ := by
  rw [qinv, ← Rat.inv_def]
  rfl

theorem qdiv_eq (a b : ℚ) : qdiv a b = a / b := by
  rw [qdiv, qmul_eq, qinv_eq, div_eq_mul_inv]

theorem qofNat_eq (n : Nat) : qofNat n = (n : ℚ) := by
  simp [qofNat, mkRat, Rat.normalize]

/-- `array.reduce((a, b) => a + b, 0)`: left fold of addition over a list,
starting from 0. -/
def qsum (l : List ℚ) : ℚ := l.foldl qadd 0

theorem qsum_eq (l : List ℚ) : qsum l = l.sum := by
  rw [qsum, List.sum_eq_foldl]
  exact congrFun (congrFun (congrArg _ (funext fun a => funext fun b => qadd_eq a b)) 0) l

/-- One optical symbol rendered by the sender: white (ON) or black (OFF).
Source: the color strings in gateFlashSender.js (white = ON, black = OFF). -/
inductive Color where
  | white
  | black
deriving DecidableEq, Repr

/-! ## TIMING_CONFIG (src/src/utils/flashDecoder.js, differential variant)

The configuration object imported by gateFlashReceiver.js and
gateFlashSender.js.  Values from the differential-detection variant of
flashDecoder.js (the one defining BRIGHTNESS_CHANGE_THRESHOLD and
BASELINE_SAMPLES, which the receiver reads). -/

def START_DURATION : ℚ := 1000

def BIT_DURATION : ℚ := 300

def END_DURATION : ℚ := 1000

def BRIGHTNESS_CHANGE_THRESHOLD : ℚ := 50

def BASELINE_SAMPLES : Nat := 30

/-- Absolute threshold of the superseded flashDecoder.js variant
(BRIGHTNESS_THRESHOLD: 100). -/
def BRIGHTNESS_THRESHOLD : ℚ := 100

/-- `numberToBits` from gateFlashSender.js lines 20-26 (identical copy in the
screen-flasher source): push bit (value >> i) & 1 for i = 7 down to 0,
giving an 8-element MSB-first bit array. -/
def numberToBits (value : Nat) : List Nat :=
  (List.range 8).map (fun k => (value >>> (7 - k)) &&& 1)

/-- Differential classifier `isLightOn` from gateFlashReceiver.js lines 18-21:
true iff brightness - baseline >= BRIGHTNESS_CHANGE_THRESHOLD. -/
def isLightOn (brightness baseline : ℚ) : Bool :=
  decide (BRIGHTNESS_CHANGE_THRESHOLD ≤ qsub brightness baseline)

/-- Absolute-threshold classifier `isLightOn` from the superseded
flashDecoder.js lines 88-90: true iff brightness > BRIGHTNESS_THRESHOLD.
Takes no baseline argument. -/
def isLightOnAbs (brightness : ℚ) : Bool :=
  decide (BRIGHTNESS_THRESHOLD < brightness)

/-! ## Byte decode (GateFlashReceiver.decodeResponse, gateFlashReceiver.js
lines 204-234, and FlashDecoder.decodeChallenge, flashDecoder.js lines
207-221) -/

/-- The distinct `onError` call sites of the receiver. -/
inductive RxError where
  /-- "Invalid number of bits received: n (expected 8)" -/
  | invalidBitCount (n : Nat)
  /-- "Invalid bit value at position i: v" -/
  | invalidBitValue (i : Nat) (v : Nat)
  /-- "Invalid response value: v (expected 0-255)" -/
  | invalidResponseValue (v : Nat)
  /-- "Baseline lost during bit reading" -/
  | baselineLostBits
  /-- "Baseline lost during END detection" -/
  | baselineLostEnd
  /-- "END signal not detected properly - light still on" -/
  | endNotDetected
deriving DecidableEq, Repr

/-- Callbacks fired by the receiver during one tick, in call order. -/
inductive RxEvent where
  /-- `onResponseReceived(v)` -/
  | decoded (v : Nat)
  /-- `onError(e)` -/
  | error (e : RxError)
deriving DecidableEq, Repr

/-- The bit-validation loop of decodeResponse: scan for the first index whose
value is neither 0 nor 1 (the JS loop reports position and value of the
first offender and returns). -/
def firstBadBit : List Nat → Nat → Option (Nat × Nat)
  | [], _ => none
  | b :: rest, i => if b ≠ 0 ∧ b ≠ 1 then some (i, b) else firstBadBit rest (i + 1)

/-- `GateFlashReceiver.decodeResponse` (gateFlashReceiver.js lines 204-234) as
a pure function: reject a bit count other than 8, reject the first bit value
outside {0,1}, accumulate `(response << 1) | bit` MSB first, reject a result
outside 0-255, otherwise succeed.  Bit values are JS nonnegative integers,
modelled as Nat; the accumulator therefore never goes negative, so the JS
`response < 0` half of the final range check cannot fire and only the
`response > 255` half is modelled. -/
def decodeResponse (bits : List Nat) : Except RxError Nat :=
  if bits.length ≠ 8 then .error (.invalidBitCount bits.length)
  else
    match firstBadBit bits 0 with
    | some (i, v) => .error (.invalidBitValue i v)
    | none =>
      let response := bits.foldl (fun acc b => (acc <<< 1) ||| b) 0
      if response > 255 then .error (.invalidResponseValue response)
      else .ok response

/-- `FlashDecoder.decodeChallenge` from the superseded flashDecoder.js lines
207-221: rejects a bit count other than 8 but, unlike decodeResponse, performs
no bit-value validation and no range check before invoking the success
callback. -/
def decodeChallenge (bits : List Nat) : Except RxError Nat :=
  if bits.length ≠ 8 then .error (.invalidBitCount bits.length)
  else .ok (bits.foldl (fun acc b => (acc <<< 1) ||| b) 0)

instance : DecidableEq (Except RxError Nat)
  | .ok a, .ok b => if h : a = b then .isTrue (by rw [h]) else .isFalse (by simp [h])
  | .ok _, .error _ => .isFalse (by simp)
  | .error _, .ok _ => .isFalse (by simp)
  | .error a, .error b =>
      if h : a = b then .isTrue (by rw [h]) else .isFalse (by simp [h])

/-! ## GateFlashReceiver (gateFlashReceiver.js lines 29-250) -/

/-- The values of `this.state` in GateFlashReceiver. -/
inductive RxState where
  | IDLE
  | CALIBRATE
  | DETECT_START
  | READ_BITS
  | DETECT_END
  | COMPLETE
deriving DecidableEq, Repr

/-- Mutable fields of a GateFlashReceiver instance.  `animActive` models
whether an animation frame is currently requested (animationFrameId ≠ null),
i.e. whether the next driver tick will run `animate`.  The video/canvas
fields are not modelled: the embedding assumes they are attached by `start`,
so the early-return guard at the top of `animate` is never taken, and the
sampled brightness arrives as the tick input. -/
structure Receiver where
  state : RxState
  bits : List Nat
  currentBitIndex : Nat
  startTime : Option ℚ
  lastStateChange : Option ℚ
  baselineBrightness : Option ℚ
  baselineSamples : List ℚ
  isCalibrated : Bool
  animActive : Bool
deriving DecidableEq, Repr

/-- The constructor state of GateFlashReceiver (lines 30-46): everything null
or empty, state IDLE, no animation frame requested. -/
def mkReceiver : Receiver :=
  { state := .IDLE, bits := [], currentBitIndex := 0, startTime := none,
    lastStateChange := none, baselineBrightness := none, baselineSamples := [],
    isCalibrated := false, animActive := false }

/-- `GateFlashReceiver.start` (lines 54-68) at clock instant `now`
(performance.now()): enter CALIBRATE with cleared frame and calibration
state and request the first animation frame. -/
def startR (r : Receiver) (now : ℚ) : Receiver :=
  { r with state := .CALIBRATE, bits := [], currentBitIndex := 0,
           startTime := some now, lastStateChange := some now,
           baselineSamples := [], isCalibrated := false,
           baselineBrightness := none, animActive := true }

/-- `GateFlashReceiver.stop` (lines 73-82): cancel the pending animation
frame, go to IDLE, clear the calibration state.  `bits`, `currentBitIndex`,
`startTime` and `lastStateChange` are left untouched. -/
def stopR (r : Receiver) : Receiver :=
  { r with animActive := false, state := .IDLE, isCalibrated := false,
           baselineBrightness := none, baselineSamples := [] }

/-- `GateFlashReceiver.reset` (lines 239-249): stop, then clear every
session field. -/
def resetR (r : Receiver) : Receiver :=
  let r1 := stopR r
  { r1 with state := .IDLE, bits := [], currentBitIndex := 0,
            startTime := none, lastStateChange := none,
            baselineBrightness := none, baselineSamples := [],
            isCalibrated := false }

/-- One pass of `GateFlashReceiver.animate` (lines 88-198) given the sampled
brightness and the clock instant `now`; returns the updated receiver and the
callbacks fired, in order.  In the JS, error branches call `this.stop()` and
then fall through to the re-arm of requestAnimationFrame at the bottom of
`animate`, so after an in-tick `stop()` the loop keeps ticking (in IDLE);
only the COMPLETE case returns without re-arming. -/
def animate (r : Receiver) (now brightness : ℚ) : Receiver × List RxEvent :=
  let elapsed := qsub now (r.lastStateChange.getD 0)
  match r.state with
  | .CALIBRATE =>
      let samples := r.baselineSamples ++ [brightness]
      if BASELINE_SAMPLES ≤ samples.length then
        ({ r with baselineSamples := samples,
                  baselineBrightness := some (qdiv (qsum samples) (qofNat samples.length)),
                  isCalibrated := true, state := .DETECT_START,
                  lastStateChange := some now, animActive := true }, [])
      else
        ({ r with baselineSamples := samples, animActive := true }, [])
  | .DETECT_START =>
      if r.isCalibrated = false ∨ r.baselineBrightness = none then
        ({ r with state := .CALIBRATE, baselineSamples := [], animActive := true }, [])
      else
        let isOnStart := isLightOn brightness (r.baselineBrightness.getD 0)
        if isOnStart = true ∧ START_DURATION ≤ elapsed then
          ({ r with state := .READ_BITS, currentBitIndex := 0, bits := [],
                    lastStateChange := some now, animActive := true }, [])
        else if isOnStart = false ∧ qmul START_DURATION (mkRat 3 2) < elapsed then
          ({ r with lastStateChange := some now, animActive := true }, [])
        else
          ({ r with animActive := true }, [])
  | .READ_BITS =>
      if r.isCalibrated = false ∨ r.baselineBrightness = none then
        ({ stopR r with animActive := true }, [.error .baselineLostBits])
      else
        let isOnBit := isLightOn brightness (r.baselineBrightness.getD 0)
        if BIT_DURATION ≤ elapsed then
          let bit : Nat := if isOnBit then 1 else 0
          let newBits := r.bits ++ [bit]
          let newIndex := r.currentBitIndex + 1
          if 8 ≤ newIndex then
            ({ r with bits := newBits, currentBitIndex := newIndex,
                      lastStateChange := some now, state := .DETECT_END,
                      animActive := true }, [])
          else
            ({ r with bits := newBits, currentBitIndex := newIndex,
                      lastStateChange := some now, animActive := true }, [])
        else
          ({ r with animActive := true }, [])
  | .DETECT_END =>
      if r.isCalibrated = false ∨ r.baselineBrightness = none then
        ({ stopR r with animActive := true }, [.error .baselineLostEnd])
      else
        let isOnEnd := isLightOn brightness (r.baselineBrightness.getD 0)
        if isOnEnd = false ∧ END_DURATION ≤ elapsed then
          match decodeResponse r.bits with
          | .ok v => ({ r with state := .COMPLETE, animActive := true }, [.decoded v])
          | .error e => ({ r with state := .COMPLETE, animActive := true }, [.error e])
        else if isOnEnd = true ∧ qmul END_DURATION (mkRat 3 2) < elapsed then
          ({ stopR r with animActive := true }, [.error .endNotDetected])
        else
          ({ r with animActive := true }, [])
  | .COMPLETE =>
      (stopR r, [])
  | .IDLE =>
      ({ r with animActive := true }, [])

/-- Drive the receiver with a list of (timestamp, brightness) ticks.  A tick
fires only while an animation frame is requested (`animActive`); once the
frame is cancelled without re-arm no further callbacks run. -/
def runFrom (r : Receiver) : List (ℚ × ℚ) → Receiver × List RxEvent
  | [] => (r, [])
  | (t, b) :: rest =>
      if r.animActive then
        let step := animate r t b
        let tail := runFrom step.1 rest
        (tail.1, step.2 ++ tail.2)
      else
        runFrom r rest

/-- Like `runFrom` but also records the receiver state after each fired tick
(used to exhibit the states the machine passes through). -/
def runTrace (r : Receiver) : List (ℚ × ℚ) → Receiver × List RxEvent × List RxState
  | [] => (r, [], [])
  | (t, b) :: rest =>
      if r.animActive then
        let step := animate r t b
        let tail := runTrace step.1 rest
        (tail.1, step.2 ++ tail.2.1, step.1.state :: tail.2.2)
      else
        runTrace r rest

/-! ## sendGateFlash (gateFlashSender.js lines 36-162) -/

/-- The `sequence` array built by sendGateFlash (lines 67-86): START as white
for START_DURATION, the 8 bits of numberToBits MSB first (white for 1, black
for 0) for BIT_DURATION each, END as black for END_DURATION.  The identical
list is built (imperatively) by flashScreen in the screen-flasher source. -/
def buildSequence (value : Nat) : List (Color × ℚ) :=
  [(Color.white, START_DURATION)]
    ++ (numberToBits value).map
        (fun bit => ((if bit = 1 then Color.white else Color.black), BIT_DURATION))
    ++ [(Color.black, END_DURATION)]

/-- Callbacks fired by the sender during one tick. -/
inductive SEvent where
  /-- `onComplete()` -/
  | complete
  /-- `onProgress(...)` (message text not modelled) -/
  | progress
deriving DecidableEq, Repr

/-- Mutable state of one sendGateFlash call.  `animActive` models a pending
requestAnimationFrame; `overlayDisplay` is the overlay's display:block flag
and `overlayColor` its background (none = transparent). -/
structure Sender where
  seq : List (Color × ℚ)
  startTime : Option ℚ
  isCancelled : Bool
  animActive : Bool
  currentStep : Nat
  stepStartTime : ℚ
  lastProgressUpdate : ℚ
  overlayDisplay : Bool
  overlayColor : Option Color
deriving DecidableEq, Repr

/-- State right after `sendGateFlash(value, ...)` returns: sequence built,
overlay created/made visible, first animation frame requested. -/
def initSender (value : Nat) : Sender :=
  { seq := buildSequence value, startTime := none, isCancelled := false,
    animActive := true, currentStep := 0, stepStartTime := 0,
    lastProgressUpdate := 0, overlayDisplay := true, overlayColor := none }

/-- `cleanup` (lines 142-152): cancel the pending frame and hide/clear the
overlay. -/
def cleanupS (s : Sender) : Sender :=
  { s with animActive := false, overlayDisplay := false, overlayColor := none }

/-- The cancel closure returned by sendGateFlash (lines 158-161): set
isCancelled, then cleanup. -/
def cancelS (s : Sender) : Sender :=
  cleanupS { s with isCancelled := true }

/-- First-frame latch at the top of the sender's `animate` (lines 100-103):
on the first tick, record startTime and start the first step's clock. -/
def latchStart (s : Sender) (ts : ℚ) : Sender :=
  if s.startTime = none then { s with startTime := some ts, stepStartTime := ts } else s

/-- Body of the sender's `animate` after the cancellation guard and the
first-frame latch (lines 105-136): fire onComplete (after cleanup) once past
the last step; otherwise render the current step's color, emit a throttled
progress callback, and advance to the next step — by exactly one — when the
step's duration has elapsed. -/
def senderRun (s : Sender) (ts : ℚ) : Sender × List SEvent :=
  if h : s.seq.length ≤ s.currentStep then (cleanupS s, [.complete])
  else
    let step := s.seq.get ⟨s.currentStep, by omega⟩
    let s2 := { s with overlayColor := some step.1 }
    let progPair :=
      if 100 < qsub ts s2.lastProgressUpdate
      then ({ s2 with lastProgressUpdate := ts }, [SEvent.progress])
      else (s2, ([] : List SEvent))
    let s3 := progPair.1
    if step.2 ≤ qsub ts s2.stepStartTime then
      let s4 : Sender := { s3 with currentStep := s3.currentStep + 1,
                                   stepStartTime := ts, lastProgressUpdate := ts }
      let evs2 : List SEvent :=
        if s4.currentStep < s4.seq.length then [.progress] else []
      ({ s4 with animActive := true }, progPair.2 ++ evs2)
    else
      ({ s3 with animActive := true }, progPair.2)

/-- One pass of the sender's `animate(timestamp)` (lines 94-137): bail out
after cancellation, latch the first frame, then run the step logic. -/
def senderTick (s : Sender) (ts : ℚ) : Sender × List SEvent :=
  if s.isCancelled then (cleanupS s, [])
  else senderRun (latchStart s ts) ts

/-- Drive the sender with a list of timestamps; ticks fire only while an
animation frame is pending. -/
def runTicksS (s : Sender) : List ℚ → Sender × List SEvent
  | [] => (s, [])
  | ts :: rest =>
      if s.animActive then
        let step := senderTick s ts
        let tail := runTicksS step.1 rest
        (tail.1, step.2 ++ tail.2)
      else
        runTicksS s rest

/-! ## Synthetic end-to-end stream for the framing claim

A sample stream that exactly realizes the transmitter's built sequence:
brightness 20 (ambient/OFF) before the sequence begins at t = 900 ms and
wherever the sequence shows black, brightness 90 wherever it shows white,
sampled every 30 ms (exactly 10 samples per 300 ms bit). -/

/-- The symbol the built sequence shows at time `t` past its start (black
once the sequence is over). -/
def symbolAt : List (Color × ℚ) → ℚ → Color
  | [], _ => Color.black
  | (c, d) :: rest, t => if t < d then c else symbolAt rest (qsub t d)

/-- Brightness of the synthetic stream for value `v`: the sender's sequence
plays from t = 900 ms; ON renders as 90, OFF as the ambient 20. -/
def brightnessAt (v : Nat) (t : ℚ) : ℚ :=
  if t < 900 then 20
  else if symbolAt (buildSequence v) (qsub t 900) = Color.white then 90 else 20

/-- 178 receiver ticks at t = 0, 30, ..., 5310 ms sampling the synthetic
stream for `v`: calibration occupies the first 30 ticks, the decode fires on
the last one. -/
def c1Ticks (v : Nat) : List (ℚ × ℚ) :=
  (List.range 178).map (fun k => (qofNat (30 * k), brightnessAt v (qofNat (30 * k))))


/-! ## Synthetic-stream decomposition: bit values, segment tick lists, and
the receiver states the run passes through between segments -/

/-- Bit i (MSB first) of value v, as the sender's numberToBits computes it. -/
def bitAt (v i : Nat) : Nat := (v >>> (7 - i)) &&& 1

/-- Brightness level the synthetic stream shows for a bit value: 90 for an ON
bit, the ambient 20 for an OFF bit. -/
def bitLevel (b : Nat) : ℚ := if b = 1 then 90 else 20

/-- Ticks 0..63 of the synthetic stream (t = 0..1890 ms): ambient during
calibration, then the sender's START. -/
def prefixTicks : List (ℚ × ℚ) :=
  (List.range 64).map (fun k => (qofNat (30 * k), if k < 30 then (20 : ℚ) else 90))

/-- The 10 ticks sampling one bit window: t = Tn+30, ..., Tn+300 at the
bit's brightness level. -/
def bitSegTicks (Tn : Nat) (β : ℚ) : List (ℚ × ℚ) :=
  (List.range 10).map (fun j => (qofNat (Tn + 30 * (j + 1)), β))

/-- The 34 ticks sampling the END window (t = 4320..5310 ms, ambient). -/
def endSegTicks : List (ℚ × ℚ) :=
  (List.range 34).map (fun j => (qofNat (4290 + 30 * (j + 1)), 20))

/-- Receiver in READ_BITS with bits `bs` collected and the bit clock last
reset at t = Tn, calibrated at baseline 20. -/
def readBitsReceiver (Tn : Nat) (bs : List Nat) : Receiver :=
  { state := .READ_BITS, bits := bs, currentBitIndex := bs.length, startTime := some 0,
    lastStateChange := some (qofNat Tn), baselineBrightness := some 20,
    baselineSamples := List.replicate 30 20, isCalibrated := true, animActive := true }

/-- Receiver in DETECT_END with all 8 bits collected at t = Tn. -/
def endWaitAt (Tn : Nat) (bs : List Nat) : Receiver :=
  { state := .DETECT_END, bits := bs, currentBitIndex := 8, startTime := some 0,
    lastStateChange := some (qofNat Tn), baselineBrightness := some 20,
    baselineSamples := List.replicate 30 20, isCalibrated := true, animActive := true }

/-! ## Invariant predicates for the receiver state machine -/

def isDecodeErr : RxError → Bool
  | .invalidBitCount _ => true
  | .invalidBitValue _ _ => true
  | .invalidResponseValue _ => true
  | _ => false

def GoodEv : RxEvent → Prop
  | .decoded n => n ≤ 255
  | .error e => isDecodeErr e = false

def Inv (r : Receiver) : Prop :=
  (∀ b ∈ r.bits, b ≤ 1) ∧ r.bits.length ≤ 8 ∧
    (r.state = RxState.READ_BITS → r.bits.length = r.currentBitIndex ∧ r.currentBitIndex < 8) ∧
    (r.state = RxState.DETECT_END → r.bits.length = 8)

/-! ## Concrete receiver states used as test inputs -/

/-- A receiver waiting for END: 8 bits collected, calibrated at baseline 20,
last state change at instant 0. -/
def endWaitReceiver : Receiver :=
  { state := .DETECT_END, bits := [1, 0, 1, 0, 1, 0, 1, 0], currentBitIndex := 8,
    startTime := some 0, lastStateChange := some 0, baselineBrightness := some 20,
    baselineSamples := List.replicate 30 20, isCalibrated := true, animActive := true }

/-- A receiver waiting for START whose calibration state has been lost. -/
def startWaitReceiver : Receiver :=
  { state := .DETECT_START, bits := [], currentBitIndex := 0, startTime := some 0,
    lastStateChange := some 0, baselineBrightness := none, baselineSamples := [],
    isCalibrated := false, animActive := true }

/-- A receiver reading bits whose calibration state has been lost. -/
def bitsLostReceiver : Receiver :=
  { state := .READ_BITS, bits := [1], currentBitIndex := 1, startTime := some 0,
    lastStateChange := some 0, baselineBrightness := none, baselineSamples := [],
    isCalibrated := false, animActive := true }

/-! ## Helper lemmas -/

theorem runFrom_idle (r : Receiver) (hs : r.state = RxState.IDLE) :
    ∀ ticks, (runFrom r ticks).2 = [] ∧ (runFrom r ticks).1.state = RxState.IDLE := by
  intro ticks
  induction ticks generalizing r with
  | nil => exact ⟨rfl, hs⟩
  | cons tb rest ih =>
      obtain ⟨t, b⟩ := tb
      by_cases ha : r.animActive
      · have hstep : animate r t b = ({ r with animActive := true }, []) := by
          simp [animate, hs]
        have := ih { r with animActive := true } hs
        simpa [runFrom, ha, hstep] using this
      · simpa [runFrom, ha] using ih r hs

theorem firstBadBit_isSome (bits : List Nat) (hbad : ∃ b ∈ bits, b ≠ 0 ∧ b ≠ 1) :
    ∀ i, ∃ p, firstBadBit bits i = some p := by
  induction bits with
  | nil => simp at hbad
  | cons b rest ih =>
      intro i
      rcases hbad with ⟨x, hx, hx01⟩
      by_cases hb : b ≠ 0 ∧ b ≠ 1
      · exact ⟨(i, b), by simp [firstBadBit, hb]⟩
      · rcases List.mem_cons.mp hx with rfl | hxr
        · exact absurd hx01 hb
        · rcases ih ⟨x, hxr, hx01⟩ (i + 1) with ⟨p, hp⟩
          exact ⟨p, by simp [firstBadBit, hb, hp]⟩

theorem firstBadBit_isNone (bits : List Nat) (hgood : ∀ b ∈ bits, b = 0 ∨ b = 1) :
    ∀ i, firstBadBit bits i = none := by
  induction bits with
  | nil => intro i; rfl
  | cons b rest ih =>
      intro i
      have hb : ¬(b ≠ 0 ∧ b ≠ 1) := by
        rcases hgood b (List.mem_cons_self b rest) with h | h <;> simp [h]
      simp [firstBadBit, hb]
      exact ih (fun x hx => hgood x (List.mem_cons_of_mem _ hx)) (i + 1)

theorem two_mul_lor_le_one (a b : Nat) (hb : b ≤ 1) : 2 * a ||| b = 2 * a + b := by
  have hb01 : b = 0 ∨ b = 1 := by omega
  rcases hb01 with rfl | rfl
  · simp
  · have h1 : (1 : Nat) = Nat.bit true 0 := by simp [Nat.bit]
    have h2 : 2 * a = Nat.bit false a := by simp [Nat.bit]
    rw [h2, h1, Nat.lor_bit]
    simp [Nat.bit]

theorem decode_fold_lt (bits : List Nat) (hgood : ∀ b ∈ bits, b ≤ 1) :
    ∀ acc k, acc < 2 ^ k →
      bits.foldl (fun acc b => (acc <<< 1) ||| b) acc < 2 ^ (k + bits.length) := by
  induction bits with
  | nil => intro acc k h; simpa using h
  | cons b rest ih =>
      intro acc k h
      have hb : b ≤ 1 := hgood b (List.mem_cons_self b rest)
      have hstep : (acc <<< 1) ||| b = 2 * acc + b := by
        rw [Nat.shiftLeft_eq, pow_one, Nat.mul_comm]
        exact two_mul_lor_le_one acc b hb
      have hlt : (acc <<< 1) ||| b < 2 ^ (k + 1) := by
        rw [hstep, pow_succ]
        omega
      have := ih (fun x hx => hgood x (List.mem_cons_of_mem _ hx)) _ _ hlt
      simpa [Nat.add_assoc, Nat.add_comm, Nat.add_left_comm] using this

theorem decodeResponse_ok_of_wellformed (bits : List Nat) (hlen : bits.length = 8)
    (hgood : ∀ b ∈ bits, b ≤ 1) :
    ∃ n, n ≤ 255 ∧ decodeResponse bits = .ok n := by
  have h01 : ∀ b ∈ bits, b = 0 ∨ b = 1 := fun b hb => by
    have := hgood b hb; omega
  have hnone := firstBadBit_isNone bits h01 0
  have hlt : bits.foldl (fun acc b => (acc <<< 1) ||| b) 0 < 2 ^ (0 + bits.length) :=
    decode_fold_lt bits hgood 0 0 (by norm_num)
  rw [hlen] at hlt
  norm_num at hlt
  refine ⟨bits.foldl (fun acc b => (acc <<< 1) ||| b) 0, by omega, ?_⟩
  simp only [decodeResponse, hlen, hnone]
  norm_num
  omega

theorem senderRun_no_skip (s : Sender) (ts : ℚ) :
    (senderRun s ts).1.currentStep = s.currentStep ∨
      (senderRun s ts).1.currentStep = s.currentStep + 1 := by
  unfold senderRun
  by_cases h : s.seq.length ≤ s.currentStep
  · simp [h, cleanupS]
  · have hlt : s.currentStep < s.seq.length := by omega
    by_cases hp : 100 < qsub ts s.lastProgressUpdate <;>
      by_cases ha : (s.seq[s.currentStep]).2 ≤ qsub ts s.stepStartTime <;>
        simp [h, hp, ha]

theorem sender_step_no_skip (s : Sender) (ts : ℚ) :
    (senderTick s ts).1.currentStep = s.currentStep ∨
      (senderTick s ts).1.currentStep = s.currentStep + 1 := by
  unfold senderTick
  by_cases hc : s.isCancelled
  · simp [hc, cleanupS]
  · have hl : (latchStart s ts).currentStep = s.currentStep := by
      unfold latchStart
      by_cases hst : s.startTime = none <;> simp [hst]
    simp only [hc, Bool.false_eq_true, if_false]
    rw [← hl]
    exact senderRun_no_skip (latchStart s ts) ts

theorem senderRun_complete (s : Sender) (ts : ℚ) :
    ((senderRun s ts).2.count SEvent.complete = 0) ∨
      ((senderRun s ts).2 = [SEvent.complete] ∧ (senderRun s ts).1.animActive = false) := by
  unfold senderRun
  by_cases h : s.seq.length ≤ s.currentStep
  · right
    simp [h, cleanupS]
  · left
    have hlt : s.currentStep < s.seq.length := by omega
    by_cases hp : 100 < qsub ts s.lastProgressUpdate <;>
      by_cases ha : (s.seq[s.currentStep]).2 ≤ qsub ts s.stepStartTime <;>
        by_cases hq : s.currentStep + 1 < s.seq.length <;>
          simp [h, hp, ha, hq, List.count_cons, List.count_nil]

theorem senderTick_complete (s : Sender) (ts : ℚ) :
    ((senderTick s ts).2.count SEvent.complete = 0) ∨
      ((senderTick s ts).2 = [SEvent.complete] ∧ (senderTick s ts).1.animActive = false) := by
  unfold senderTick
  by_cases hc : s.isCancelled
  · left
    simp [hc]
  · simp only [hc, Bool.false_eq_true, if_false]
    exact senderRun_complete (latchStart s ts) ts

theorem runTicksS_inactive (s : Sender) (h : s.animActive = false) (ts : List ℚ) :
    runTicksS s ts = (s, []) := by
  induction ts with
  | nil => rfl
  | cons t rest ih => simp [runTicksS, h, ih]

theorem runTicksS_complete_le_one (s : Sender) (ts : List ℚ) :
    (runTicksS s ts).2.count SEvent.complete ≤ 1 := by
  induction ts generalizing s with
  | nil => simp [runTicksS]
  | cons t rest ih =>
      by_cases ha : s.animActive
      · rcases senderTick_complete s t with h0 | ⟨h1, hinact⟩
        · simp [runTicksS, ha, List.count_append, h0]
          exact ih (senderTick s t).1
        · have htail := runTicksS_inactive (senderTick s t).1 hinact rest
          simp [runTicksS, ha, htail, h1]
      · simp [runTicksS, ha]
        exact ih s

theorem animate_inv (r : Receiver) (t b : ℚ) (h : Inv r) :
    Inv (animate r t b).1 ∧ ∀ e ∈ (animate r t b).2, GoodEv e := by
  obtain ⟨hb, hlen, hrb, hde⟩ := h
  cases hs : r.state with
  | IDLE =>
      have hstep : animate r t b = ({ r with animActive := true }, []) := by
        simp [animate, hs]
      rw [hstep]
      exact ⟨⟨hb, hlen, by simp [hs], by simp [hs]⟩, by simp⟩
  | CALIBRATE =>
      by_cases hcal : BASELINE_SAMPLES ≤ r.baselineSamples.length + 1
      · have hstep : animate r t b = ({ r with
            baselineSamples := r.baselineSamples ++ [b],
            baselineBrightness := some (qdiv (qsum (r.baselineSamples ++ [b]))
              (qofNat (r.baselineSamples ++ [b]).length)),
            isCalibrated := true, state := .DETECT_START,
            lastStateChange := some t, animActive := true }, []) := by
          simp [animate, hs, hcal]
        rw [hstep]
        exact ⟨⟨hb, hlen, by simp, by simp⟩, by simp⟩
      · have hstep : animate r t b = ({ r with
            baselineSamples := r.baselineSamples ++ [b], animActive := true }, []) := by
          simp [animate, hs, hcal]
        rw [hstep]
        exact ⟨⟨hb, hlen, by simp [hs], by simp [hs]⟩, by simp⟩
  | DETECT_START =>
      by_cases hm : r.isCalibrated = false ∨ r.baselineBrightness = none
      · have hstep : animate r t b = ({ r with
            state := RxState.CALIBRATE, baselineSamples := [], animActive := true }, []) := by
          simp only [animate, hs]
          rw [if_pos hm]
        rw [hstep]
        exact ⟨⟨hb, hlen, by simp, by simp⟩, by simp⟩
      · by_cases h1 : isLightOn b (r.baselineBrightness.getD 0) = true ∧
            START_DURATION ≤ qsub t (r.lastStateChange.getD 0)
        · have hstep : animate r t b = ({ r with
              state := RxState.READ_BITS, currentBitIndex := 0, bits := [],
              lastStateChange := some t, animActive := true }, []) := by
            simp only [animate, hs]
            rw [if_neg hm, if_pos h1]
          rw [hstep]
          exact ⟨⟨by simp, by simp, by simp, by simp⟩, by simp⟩
        · by_cases h2 : isLightOn b (r.baselineBrightness.getD 0) = false ∧
              qmul START_DURATION (mkRat 3 2) < qsub t (r.lastStateChange.getD 0)
          · have hstep : animate r t b = ({ r with
                lastStateChange := some t, animActive := true }, []) := by
              simp only [animate, hs]
              rw [if_neg hm, if_neg h1, if_pos h2]
            rw [hstep]
            exact ⟨⟨hb, hlen, by simp [hs], by simp [hs]⟩, by simp⟩
          · have hstep : animate r t b = ({ r with animActive := true }, []) := by
              simp only [animate, hs]
              rw [if_neg hm, if_neg h1, if_neg h2]
            rw [hstep]
            exact ⟨⟨hb, hlen, by simp [hs], by simp [hs]⟩, by simp⟩
  | READ_BITS =>
      obtain ⟨hlen_ix, hix⟩ := hrb hs
      by_cases hm : r.isCalibrated = false ∨ r.baselineBrightness = none
      · have hstep : animate r t b =
            ({ stopR r with animActive := true }, [.error .baselineLostBits]) := by
          simp only [animate, hs]
          rw [if_pos hm]
        rw [hstep]
        exact ⟨⟨hb, hlen, by simp [stopR], by simp [stopR]⟩, by simp [GoodEv, isDecodeErr]⟩
      · by_cases hbit : BIT_DURATION ≤ qsub t (r.lastStateChange.getD 0)
        · set bitv : Nat := if isLightOn b (r.baselineBrightness.getD 0) then 1 else 0 with hbitv
          have hbv : bitv ≤ 1 := by
            rw [hbitv]
            split <;> omega
          have hmem : ∀ x ∈ r.bits ++ [bitv], x ≤ 1 := by
            intro x hx
            rcases List.mem_append.mp hx with hx1 | hx2
            · exact hb x hx1
            · rw [List.mem_singleton.mp hx2]
              exact hbv
          by_cases h8 : 8 ≤ r.currentBitIndex + 1
          · have hstep : animate r t b = ({ r with
                bits := r.bits ++ [bitv], currentBitIndex := r.currentBitIndex + 1,
                lastStateChange := some t, state := RxState.DETECT_END,
                animActive := true }, []) := by
              simp only [animate, hs]
              rw [if_neg hm, if_pos hbit, if_pos h8]
            rw [hstep]
            refine ⟨⟨hmem, ?_, by simp, ?_⟩, by simp⟩
            · simp only [List.length_append, List.length_singleton]
              omega
            · intro
              simp only [List.length_append, List.length_singleton]
              omega
          · have hstep : animate r t b = ({ r with
                bits := r.bits ++ [bitv], currentBitIndex := r.currentBitIndex + 1,
                lastStateChange := some t, animActive := true }, []) := by
              simp only [animate, hs]
              rw [if_neg hm, if_pos hbit, if_neg h8]
            rw [hstep]
            refine ⟨⟨hmem, ?_, ?_, by simp [hs]⟩, by simp⟩
            · simp only [List.length_append, List.length_singleton]
              omega
            · intro
              simp only [List.length_append, List.length_singleton]
              omega
        · have hstep : animate r t b = ({ r with animActive := true }, []) := by
            simp only [animate, hs]
            rw [if_neg hm, if_neg hbit]
          rw [hstep]
          exact ⟨⟨hb, hlen, fun _ => ⟨hlen_ix, hix⟩, by simp [hs]⟩, by simp⟩
  | DETECT_END =>
      have hlen8 := hde hs
      by_cases hm : r.isCalibrated = false ∨ r.baselineBrightness = none
      · have hstep : animate r t b =
            ({ stopR r with animActive := true }, [.error .baselineLostEnd]) := by
          simp only [animate, hs]
          rw [if_pos hm]
        rw [hstep]
        exact ⟨⟨hb, hlen, by simp [stopR], by simp [stopR]⟩, by simp [GoodEv, isDecodeErr]⟩
      · by_cases hend : isLightOn b (r.baselineBrightness.getD 0) = false ∧
            END_DURATION ≤ qsub t (r.lastStateChange.getD 0)
        · obtain ⟨n, hn, hok⟩ := decodeResponse_ok_of_wellformed r.bits hlen8 hb
          have hstep : animate r t b = ({ r with
              state := RxState.COMPLETE, animActive := true }, [.decoded n]) := by
            simp only [animate, hs]
            rw [if_neg hm, if_pos hend, hok]
          rw [hstep]
          exact ⟨⟨hb, hlen, by simp, by simp⟩, by simp [GoodEv, hn]⟩
        · by_cases htm : isLightOn b (r.baselineBrightness.getD 0) = true ∧
              qmul END_DURATION (mkRat 3 2) < qsub t (r.lastStateChange.getD 0)
          · have hstep : animate r t b =
                ({ stopR r with animActive := true }, [.error .endNotDetected]) := by
              simp only [animate, hs]
              rw [if_neg hm, if_neg hend, if_pos htm]
            rw [hstep]
            exact ⟨⟨hb, hlen, by simp [stopR], by simp [stopR]⟩,
              by simp [GoodEv, isDecodeErr]⟩
          · have hstep : animate r t b = ({ r with animActive := true }, []) := by
              simp only [animate, hs]
              rw [if_neg hm, if_neg hend, if_neg htm]
            rw [hstep]
            exact ⟨⟨hb, hlen, by simp [hs], fun _ => hlen8⟩, by simp⟩
  | COMPLETE =>
      have hstep : animate r t b = (stopR r, []) := by
        simp [animate, hs]
      rw [hstep]
      exact ⟨⟨hb, hlen, by simp [stopR], by simp [stopR]⟩, by simp⟩

theorem runFrom_inv (r : Receiver) (h : Inv r) (ticks : List (ℚ × ℚ)) :
    Inv (runFrom r ticks).1 ∧ ∀ e ∈ (runFrom r ticks).2, GoodEv e := by
  induction ticks generalizing r with
  | nil => exact ⟨h, by simp [runFrom]⟩
  | cons tb rest ih =>
      obtain ⟨t, b⟩ := tb
      by_cases ha : r.animActive
      · obtain ⟨h1, h2⟩ := animate_inv r t b h
        obtain ⟨h3, h4⟩ := ih (animate r t b).1 h1
        refine ⟨by simpa [runFrom, ha] using h3, ?_⟩
        intro e he
        simp only [runFrom, ha, if_true, List.mem_append] at he
        rcases he with he | he
        · exact h2 e he
        · exact h4 e he
      · simpa [runFrom, ha] using ih r h

theorem startR_inv (r : Receiver) (t0 : ℚ) : Inv (startR r t0) := by
  refine ⟨by simp [startR], by simp [startR], by simp [startR], by simp [startR]⟩


/-! ## Helper lemmas for the end-to-end framing run -/

theorem qofNat_le_qofNat (a b : Nat) : qofNat a ≤ qofNat b ↔ a ≤ b := by
  rw [qofNat_eq, qofNat_eq]
  exact_mod_cast Iff.rfl

theorem qofNat_lt_qofNat (a b : Nat) : qofNat a < qofNat b ↔ a < b := by
  rw [qofNat_eq, qofNat_eq]
  exact_mod_cast Iff.rfl

theorem qsub_qofNat_of_le (a b : Nat) (h : b ≤ a) :
    qsub (qofNat a) (qofNat b) = qofNat (a - b) := by
  rw [qsub_eq, qofNat_eq, qofNat_eq, qofNat_eq, Nat.cast_sub h]

theorem nine_hundred_q : (900 : ℚ) = qofNat 900 := by
  rw [qofNat_eq]
  norm_num

theorem start_duration_q : START_DURATION = qofNat 1000 := by
  rw [qofNat_eq, START_DURATION]
  norm_num

theorem bit_duration_q : BIT_DURATION = qofNat 300 := by
  rw [qofNat_eq, BIT_DURATION]
  norm_num

theorem end_duration_q : END_DURATION = qofNat 1000 := by
  rw [qofNat_eq, END_DURATION]
  norm_num

theorem end_tolerance_q : qmul END_DURATION (mkRat 3 2) = qofNat 1500 := by decide

theorem level_of_color (b : Nat) :
    (if (if b = 1 then Color.white else Color.black) = Color.white then (90 : ℚ) else 20) =
      bitLevel b := by
  by_cases hb : b = 1 <;> simp [hb, bitLevel]

theorem numberToBits_explicit (v : Nat) :
    numberToBits v = [bitAt v 0, bitAt v 1, bitAt v 2, bitAt v 3, bitAt v 4,
      bitAt v 5, bitAt v 6, bitAt v 7] := rfl

theorem brightnessAt_calib (v k : Nat) (hk : k < 30) :
    brightnessAt v (qofNat (30 * k)) = 20 := by
  unfold brightnessAt
  rw [if_pos]
  rw [nine_hundred_q, qofNat_lt_qofNat]
  omega

theorem brightnessAt_start (v k : Nat) (hk : k < 34) :
    brightnessAt v (qofNat (900 + 30 * k)) = 90 := by
  unfold brightnessAt
  rw [if_neg (by rw [nine_hundred_q, qofNat_lt_qofNat]; omega)]
  rw [nine_hundred_q, qsub_qofNat_of_le _ _ (by omega)]
  have harg : 900 + 30 * k - 900 = 30 * k := by omega
  rw [harg]
  have hw : symbolAt (buildSequence v) (qofNat (30 * k)) = Color.white := by
    simp only [buildSequence, List.singleton_append, symbolAt]
    rw [if_pos]
    rw [start_duration_q, qofNat_lt_qofNat]
    omega
  rw [hw]
  simp

theorem brightnessAt_bit (v i k : Nat) (hi : i < 8) (hk : k < 10) :
    brightnessAt v (qofNat (1920 + 300 * i + 30 * k)) = bitLevel (bitAt v i) := by
  unfold brightnessAt
  rw [if_neg (by rw [nine_hundred_q, qofNat_lt_qofNat]; omega)]
  rw [nine_hundred_q, qsub_qofNat_of_le _ _ (by omega)]
  unfold bitAt
  interval_cases i <;> interval_cases k <;>
    simp [buildSequence, numberToBits_explicit, bitAt, symbolAt, start_duration_q,
      bit_duration_q, end_duration_q, qofNat_lt_qofNat, qsub_qofNat_of_le,
      level_of_color, bitLevel]

theorem brightnessAt_end (v k : Nat) (hk : k < 34) :
    brightnessAt v (qofNat (4320 + 30 * k)) = 20 := by
  unfold brightnessAt
  rw [if_neg (by rw [nine_hundred_q, qofNat_lt_qofNat]; omega)]
  rw [nine_hundred_q, qsub_qofNat_of_le _ _ (by omega)]
  interval_cases k <;>
    simp [buildSequence, numberToBits_explicit, symbolAt, start_duration_q,
      bit_duration_q, end_duration_q, qofNat_lt_qofNat, qsub_qofNat_of_le]

theorem segCalibStart (v : Nat) :
    (List.range 64).map (fun k => (qofNat (30 * k), brightnessAt v (qofNat (30 * k)))) =
      prefixTicks := by
  unfold prefixTicks
  apply List.map_congr_left
  intro k hk
  have hk64 : k < 64 := List.mem_range.mp hk
  by_cases h30 : k < 30
  · simp only [h30, if_true]
    rw [brightnessAt_calib v k h30]
  · simp only [h30, if_false]
    rw [show 30 * k = 900 + 30 * (k - 30) from by omega]
    rw [brightnessAt_start v (k - 30) (by omega)]

theorem segCalibStartRange (v : Nat) :
    (List.range' 0 64).map (fun k => (qofNat (30 * k), brightnessAt v (qofNat (30 * k)))) =
      prefixTicks := by
  rw [show List.range' 0 64 = List.range 64 from by decide]
  exact segCalibStart v

theorem seg_bit_range' (v i c Tn : Nat) (hi : i < 8) (hc : c = 64 + 10 * i)
    (hTn : Tn = 1890 + 300 * i) :
    (List.range' c 10).map (fun k => (qofNat (30 * k), brightnessAt v (qofNat (30 * k)))) =
      bitSegTicks Tn (bitLevel (bitAt v i)) := by
  rw [List.range'_eq_map_range, List.map_map]
  unfold bitSegTicks
  apply List.map_congr_left
  intro x hx
  have hx10 : x < 10 := List.mem_range.mp hx
  show (qofNat (30 * (c + x)), brightnessAt v (qofNat (30 * (c + x)))) =
    (qofNat (Tn + 30 * (x + 1)), bitLevel (bitAt v i))
  rw [Prod.mk.injEq]
  constructor
  · exact congrArg qofNat (by omega)
  · rw [show 30 * (c + x) = 1920 + 300 * i + 30 * x from by omega]
    exact brightnessAt_bit v i x hi hx10

theorem seg_end_range' (v : Nat) :
    (List.range' 144 34).map (fun k => (qofNat (30 * k), brightnessAt v (qofNat (30 * k)))) =
      endSegTicks := by
  rw [List.range'_eq_map_range, List.map_map]
  unfold endSegTicks
  apply List.map_congr_left
  intro x hx
  have hx34 : x < 34 := List.mem_range.mp hx
  show (qofNat (30 * (144 + x)), brightnessAt v (qofNat (30 * (144 + x)))) =
    (qofNat (4290 + 30 * (x + 1)), (20 : ℚ))
  rw [Prod.mk.injEq]
  constructor
  · exact congrArg qofNat (by omega)
  · rw [show 30 * (144 + x) = 4320 + 30 * x from by omega]
    exact brightnessAt_end v x hx34

theorem c1Ticks_decomp (v : Nat) :
    c1Ticks v = prefixTicks ++
      (bitSegTicks 1890 (bitLevel (bitAt v 0)) ++ (bitSegTicks 2190 (bitLevel (bitAt v 1)) ++
      (bitSegTicks 2490 (bitLevel (bitAt v 2)) ++ (bitSegTicks 2790 (bitLevel (bitAt v 3)) ++
      (bitSegTicks 3090 (bitLevel (bitAt v 4)) ++ (bitSegTicks 3390 (bitLevel (bitAt v 5)) ++
      (bitSegTicks 3690 (bitLevel (bitAt v 6)) ++ (bitSegTicks 3990 (bitLevel (bitAt v 7)) ++
      endSegTicks)))))))) := by
  unfold c1Ticks
  rw [show List.range 178 = List.range' 0 64 ++ (List.range' 64 10 ++ (List.range' 74 10 ++
      (List.range' 84 10 ++ (List.range' 94 10 ++ (List.range' 104 10 ++ (List.range' 114 10 ++
      (List.range' 124 10 ++ (List.range' 134 10 ++ List.range' 144 34)))))))) from by decide]
  simp only [List.map_append]
  rw [segCalibStartRange v]
  rw [seg_bit_range' v 0 64 1890 (by omega) (by norm_num) (by norm_num)]
  rw [seg_bit_range' v 1 74 2190 (by omega) (by norm_num) (by norm_num)]
  rw [seg_bit_range' v 2 84 2490 (by omega) (by norm_num) (by norm_num)]
  rw [seg_bit_range' v 3 94 2790 (by omega) (by norm_num) (by norm_num)]
  rw [seg_bit_range' v 4 104 3090 (by omega) (by norm_num) (by norm_num)]
  rw [seg_bit_range' v 5 114 3390 (by omega) (by norm_num) (by norm_num)]
  rw [seg_bit_range' v 6 124 3690 (by omega) (by norm_num) (by norm_num)]
  rw [seg_bit_range' v 7 134 3990 (by omega) (by norm_num) (by norm_num)]
  rw [seg_end_range' v]

theorem runTrace_append (r : Receiver) (xs ys : List (ℚ × ℚ)) :
    runTrace r (xs ++ ys) =
      ((runTrace (runTrace r xs).1 ys).1,
        (runTrace r xs).2.1 ++ (runTrace (runTrace r xs).1 ys).2.1,
        (runTrace r xs).2.2 ++ (runTrace (runTrace r xs).1 ys).2.2) := by
  induction xs generalizing r with
  | nil => simp [runTrace]
  | cons tb rest ih =>
      obtain ⟨t, b⟩ := tb
      by_cases ha : r.animActive
      · simp [runTrace, ha, ih, List.append_assoc]
      · simp [runTrace, ha, ih]

theorem runCalibStartSeg :
    runTrace (startR mkReceiver 0) prefixTicks =
      (readBitsReceiver 1890 [], [],
        List.replicate 29 RxState.CALIBRATE ++ List.replicate 34 RxState.DETECT_START ++
          [RxState.READ_BITS]) := by
  decide

theorem run_bitSeg (Tn : Nat) (β : ℚ) (bs : List Nat) (h7 : bs.length < 7) :
    runTrace (readBitsReceiver Tn bs) (bitSegTicks Tn β) =
      (readBitsReceiver (Tn + 300) (bs ++ [if isLightOn β 20 = true then 1 else 0]),
        [], List.replicate 10 RxState.READ_BITS) := by
  have hticks : bitSegTicks Tn β =
      [(qofNat (Tn + 30), β), (qofNat (Tn + 60), β), (qofNat (Tn + 90), β),
       (qofNat (Tn + 120), β), (qofNat (Tn + 150), β), (qofNat (Tn + 180), β),
       (qofNat (Tn + 210), β), (qofNat (Tn + 240), β), (qofNat (Tn + 270), β),
       (qofNat (Tn + 300), β)] := rfl
  have h8 : ¬(8 ≤ bs.length + 1) := by omega
  rw [hticks]
  simp [runTrace, animate, readBitsReceiver, qsub_qofNat_of_le, Nat.add_sub_cancel_left,
    bit_duration_q, qofNat_le_qofNat, h8, List.replicate, List.length_append]

theorem run_bitSegLast (Tn : Nat) (β : ℚ) (bs : List Nat) (h7 : bs.length = 7) :
    runTrace (readBitsReceiver Tn bs) (bitSegTicks Tn β) =
      (endWaitAt (Tn + 300) (bs ++ [if isLightOn β 20 = true then 1 else 0]),
        [], List.replicate 9 RxState.READ_BITS ++ [RxState.DETECT_END]) := by
  have hticks : bitSegTicks Tn β =
      [(qofNat (Tn + 30), β), (qofNat (Tn + 60), β), (qofNat (Tn + 90), β),
       (qofNat (Tn + 120), β), (qofNat (Tn + 150), β), (qofNat (Tn + 180), β),
       (qofNat (Tn + 210), β), (qofNat (Tn + 240), β), (qofNat (Tn + 270), β),
       (qofNat (Tn + 300), β)] := rfl
  have h8 : 8 ≤ bs.length + 1 := by omega
  rw [hticks]
  simp [runTrace, animate, readBitsReceiver, endWaitAt, qsub_qofNat_of_le,
    Nat.add_sub_cancel_left, bit_duration_q, qofNat_le_qofNat, h8, h7,
    List.replicate, List.length_append]

theorem isLightOn_20_20 : isLightOn 20 20 = false := by decide

theorem runTrace_steady (r : Receiver) (ha : r.animActive = true) (seq : List (ℚ × ℚ))
    (h : ∀ p ∈ seq, animate r p.1 p.2 = (r, [])) :
    runTrace r seq = (r, [], List.replicate seq.length r.state) := by
  induction seq with
  | nil => simp [runTrace]
  | cons p rest ih =>
      obtain ⟨t, b⟩ := p
      have hstep := h (t, b) (List.mem_cons_self _ _)
      have htail := ih (fun q hq => h q (List.mem_cons_of_mem _ hq))
      simp [runTrace, ha, hstep, htail, List.replicate_succ]

theorem animate_endWait_noop (bs : List Nat) (c : Nat) (hc : 0 < c) (hc1 : c < 1000) :
    animate (endWaitAt 4290 bs) (qofNat (4290 + c)) 20 = (endWaitAt 4290 bs, []) := by
  have h1 : ¬((1000 : Nat) ≤ c) := by omega
  have h2 : ¬((1500 : Nat) < c) := by omega
  simp [animate, endWaitAt, qsub_qofNat_of_le, Nat.add_sub_cancel_left, end_duration_q,
    end_tolerance_q, qofNat_le_qofNat, qofNat_lt_qofNat, isLightOn_20_20, h1, h2]

theorem runTrace_single (r : Receiver) (t b : ℚ) (ha : r.animActive = true) :
    runTrace r [(t, b)] =
      ((animate r t b).1, (animate r t b).2, [(animate r t b).1.state]) := by
  simp [runTrace, ha]

theorem run_endSeg (bs : List Nat) (w : Nat) (hdec : decodeResponse bs = .ok w) :
    runTrace (endWaitAt 4290 bs) endSegTicks =
      ({ endWaitAt 4290 bs with state := RxState.COMPLETE, animActive := true },
        [RxEvent.decoded w],
        List.replicate 33 RxState.DETECT_END ++ [RxState.COMPLETE]) := by
  have hsplit : endSegTicks =
      ((List.range 33).map (fun j => (qofNat (4290 + 30 * (j + 1)), (20 : ℚ)))) ++
        [(qofNat 5310, 20)] := by
    unfold endSegTicks
    rw [show (34 : Nat) = 33 + 1 from rfl, List.range_add, List.map_append]
    rfl
  have hnoop : runTrace (endWaitAt 4290 bs)
      ((List.range 33).map (fun j => (qofNat (4290 + 30 * (j + 1)), (20 : ℚ)))) =
      (endWaitAt 4290 bs, [], List.replicate 33 RxState.DETECT_END) := by
    exact runTrace_steady (endWaitAt 4290 bs) rfl
      ((List.range 33).map (fun j => (qofNat (4290 + 30 * (j + 1)), (20 : ℚ))))
      (by
        intro p hp
        obtain ⟨j, hj, rfl⟩ := List.mem_map.mp hp
        have hj33 : j < 33 := List.mem_range.mp hj
        exact animate_endWait_noop bs (30 * (j + 1)) (by omega) (by omega))
  have hdecodeTick : animate (endWaitAt 4290 bs) (qofNat 5310) 20 =
      ({ endWaitAt 4290 bs with state := RxState.COMPLETE, animActive := true },
        [RxEvent.decoded w]) := by
    simp [animate, endWaitAt, qsub_qofNat_of_le, Nat.add_sub_cancel_left, end_duration_q,
      end_tolerance_q, qofNat_le_qofNat, qofNat_lt_qofNat, isLightOn_20_20, hdec]
  have hlast : runTrace (endWaitAt 4290 bs) [(qofNat 5310, 20)] =
      ({ endWaitAt 4290 bs with state := RxState.COMPLETE, animActive := true },
        [RxEvent.decoded w], [RxState.COMPLETE]) := by
    rw [runTrace_single (endWaitAt 4290 bs) (qofNat 5310) 20 rfl, hdecodeTick]
  rw [hsplit, runTrace_append, hnoop]
  rw [show ((endWaitAt 4290 bs, ([] : List RxEvent),
    List.replicate 33 RxState.DETECT_END) : Receiver × List RxEvent × List RxState).1 =
    endWaitAt 4290 bs from rfl]
  rw [hlast]
  rfl

theorem decode_roundtrip_all : ∀ v : Nat, v < 256 →
    decodeResponse (numberToBits v) = .ok v := by
  decide

theorem runTrace_chain (r r1 r2 : Receiver) (xs ys : List (ℚ × ℚ)) (e1 e2 : List RxEvent)
    (t1 t2 : List RxState) (h1 : runTrace r xs = (r1, e1, t1))
    (h2 : runTrace r1 ys = (r2, e2, t2)) :
    runTrace r (xs ++ ys) = (r2, e1 ++ e2, t1 ++ t2) := by
  rw [runTrace_append, h1]
  dsimp only
  rw [h2]

theorem bitAt_le_one (v i : Nat) : bitAt v i ≤ 1 := Nat.and_le_right

theorem recorded_bit (v i : Nat) :
    (if isLightOn (bitLevel (bitAt v i)) 20 = true then 1 else 0) = bitAt v i := by
  have h01 : bitAt v i = 0 ∨ bitAt v i = 1 := by
    have := bitAt_le_one v i
    omega
  rcases h01 with h | h <;> rw [h] <;> decide

/-- End-to-end run for value v: receiver events, final state, and state trace. -/
theorem c1_run (v : Nat) (hv : v < 256) :
    runTrace (startR mkReceiver 0) (c1Ticks v) =
      ({ endWaitAt 4290 [bitAt v 0, bitAt v 1, bitAt v 2, bitAt v 3, bitAt v 4, bitAt v 5,
          bitAt v 6, bitAt v 7] with state := RxState.COMPLETE, animActive := true },
        [RxEvent.decoded v],
        (List.replicate 29 RxState.CALIBRATE ++ List.replicate 34 RxState.DETECT_START ++
          [RxState.READ_BITS]) ++
        (List.replicate 10 RxState.READ_BITS ++ (List.replicate 10 RxState.READ_BITS ++
        (List.replicate 10 RxState.READ_BITS ++ (List.replicate 10 RxState.READ_BITS ++
        (List.replicate 10 RxState.READ_BITS ++ (List.replicate 10 RxState.READ_BITS ++
        (List.replicate 10 RxState.READ_BITS ++
        ((List.replicate 9 RxState.READ_BITS ++ [RxState.DETECT_END]) ++
        (List.replicate 33 RxState.DETECT_END ++ [RxState.COMPLETE])))))))))) := by
  have hdec : decodeResponse [bitAt v 0, bitAt v 1, bitAt v 2, bitAt v 3, bitAt v 4,
      bitAt v 5, bitAt v 6, bitAt v 7] = .ok v := by
    rw [← numberToBits_explicit]
    exact decode_roundtrip_all v hv
  have R0 : runTrace (readBitsReceiver 1890 []) (bitSegTicks 1890 (bitLevel (bitAt v 0))) =
      (readBitsReceiver 2190 [bitAt v 0], [], List.replicate 10 RxState.READ_BITS) := by
    have h := run_bitSeg 1890 (bitLevel (bitAt v 0)) [] (by simp)
    rw [recorded_bit v 0] at h
    simpa using h
  have R1 : runTrace (readBitsReceiver 2190 [bitAt v 0])
      (bitSegTicks 2190 (bitLevel (bitAt v 1))) =
      (readBitsReceiver 2490 [bitAt v 0, bitAt v 1], [],
        List.replicate 10 RxState.READ_BITS) := by
    have h := run_bitSeg 2190 (bitLevel (bitAt v 1)) [bitAt v 0] (by simp)
    rw [recorded_bit v 1] at h
    simpa using h
  have R2 : runTrace (readBitsReceiver 2490 [bitAt v 0, bitAt v 1])
      (bitSegTicks 2490 (bitLevel (bitAt v 2))) =
      (readBitsReceiver 2790 [bitAt v 0, bitAt v 1, bitAt v 2], [],
        List.replicate 10 RxState.READ_BITS) := by
    have h := run_bitSeg 2490 (bitLevel (bitAt v 2)) [bitAt v 0, bitAt v 1] (by simp)
    rw [recorded_bit v 2] at h
    simpa using h
  have R3 : runTrace (readBitsReceiver 2790 [bitAt v 0, bitAt v 1, bitAt v 2])
      (bitSegTicks 2790 (bitLevel (bitAt v 3))) =
      (readBitsReceiver 3090 [bitAt v 0, bitAt v 1, bitAt v 2, bitAt v 3], [],
        List.replicate 10 RxState.READ_BITS) := by
    have h := run_bitSeg 2790 (bitLevel (bitAt v 3))
      [bitAt v 0, bitAt v 1, bitAt v 2] (by simp)
    rw [recorded_bit v 3] at h
    simpa using h
  have R4 : runTrace (readBitsReceiver 3090 [bitAt v 0, bitAt v 1, bitAt v 2, bitAt v 3])
      (bitSegTicks 3090 (bitLevel (bitAt v 4))) =
      (readBitsReceiver 3390 [bitAt v 0, bitAt v 1, bitAt v 2, bitAt v 3, bitAt v 4], [],
        List.replicate 10 RxState.READ_BITS) := by
    have h := run_bitSeg 3090 (bitLevel (bitAt v 4))
      [bitAt v 0, bitAt v 1, bitAt v 2, bitAt v 3] (by simp)
    rw [recorded_bit v 4] at h
    simpa using h
  have R5 : runTrace (readBitsReceiver 3390
      [bitAt v 0, bitAt v 1, bitAt v 2, bitAt v 3, bitAt v 4])
      (bitSegTicks 3390 (bitLevel (bitAt v 5))) =
      (readBitsReceiver 3690
        [bitAt v 0, bitAt v 1, bitAt v 2, bitAt v 3, bitAt v 4, bitAt v 5], [],
        List.replicate 10 RxState.READ_BITS) := by
    have h := run_bitSeg 3390 (bitLevel (bitAt v 5))
      [bitAt v 0, bitAt v 1, bitAt v 2, bitAt v 3, bitAt v 4] (by simp)
    rw [recorded_bit v 5] at h
    simpa using h
  have R6 : runTrace (readBitsReceiver 3690
      [bitAt v 0, bitAt v 1, bitAt v 2, bitAt v 3, bitAt v 4, bitAt v 5])
      (bitSegTicks 3690 (bitLevel (bitAt v 6))) =
      (readBitsReceiver 3990
        [bitAt v 0, bitAt v 1, bitAt v 2, bitAt v 3, bitAt v 4, bitAt v 5, bitAt v 6], [],
        List.replicate 10 RxState.READ_BITS) := by
    have h := run_bitSeg 3690 (bitLevel (bitAt v 6))
      [bitAt v 0, bitAt v 1, bitAt v 2, bitAt v 3, bitAt v 4, bitAt v 5] (by simp)
    rw [recorded_bit v 6] at h
    simpa using h
  have R7 : runTrace (readBitsReceiver 3990
      [bitAt v 0, bitAt v 1, bitAt v 2, bitAt v 3, bitAt v 4, bitAt v 5, bitAt v 6])
      (bitSegTicks 3990 (bitLevel (bitAt v 7))) =
      (endWaitAt 4290
        [bitAt v 0, bitAt v 1, bitAt v 2, bitAt v 3, bitAt v 4, bitAt v 5, bitAt v 6,
          bitAt v 7], [],
        List.replicate 9 RxState.READ_BITS ++ [RxState.DETECT_END]) := by
    have h := run_bitSegLast 3990 (bitLevel (bitAt v 7))
      [bitAt v 0, bitAt v 1, bitAt v 2, bitAt v 3, bitAt v 4, bitAt v 5, bitAt v 6]
      (by simp)
    rw [recorded_bit v 7] at h
    simpa using h
  have R8 := run_endSeg
    [bitAt v 0, bitAt v 1, bitAt v 2, bitAt v 3, bitAt v 4, bitAt v 5, bitAt v 6,
      bitAt v 7] v hdec
  rw [c1Ticks_decomp v]
  exact runTrace_chain _ _ _ _ _ _ _ _ _ runCalibStartSeg
    (runTrace_chain _ _ _ _ _ _ _ _ _ R0
      (runTrace_chain _ _ _ _ _ _ _ _ _ R1
        (runTrace_chain _ _ _ _ _ _ _ _ _ R2
          (runTrace_chain _ _ _ _ _ _ _ _ _ R3
            (runTrace_chain _ _ _ _ _ _ _ _ _ R4
              (runTrace_chain _ _ _ _ _ _ _ _ _ R5
                (runTrace_chain _ _ _ _ _ _ _ _ _ R6
                  (runTrace_chain _ _ _ _ _ _ _ _ _ R7 R8))))))))

end OpticalGate

namespace OpticalGate
set_option maxRecDepth 200000

/-! ## Claim theorems -/

theorem buildSequence_shape : ∀ v : Nat, v < 256 →
    (buildSequence v).length = 10 ∧
      (buildSequence v)[0]? = some (Color.white, START_DURATION) ∧
      (∀ i, i < 8 → (buildSequence v)[i + 1]? =
        some ((if (numberToBits v)[i]? = some 1 then Color.white else Color.black),
          BIT_DURATION)) ∧
      (buildSequence v)[9]? = some (Color.black, END_DURATION) := by
  decide

/-- C2: for every value v in [0,255], encoding v to an 8-element MSB-first bit
array with `numberToBits` and decoding it back with the receiver's MSB-first
shift-accumulate `decodeResponse` yields exactly v: the two conversions are
exact inverses on [0,255]. -/
theorem codec_roundtrip : ∀ v : Nat, v < 256 → decodeResponse (numberToBits v) = .ok v :=
  decode_roundtrip_all

/-- Witness for `codec_roundtrip` at v = 170 (binary 10101010). -/
theorem codec_roundtrip_witness :
    (170 : Nat) < 256 ∧ decodeResponse (numberToBits 170) = .ok 170 :=
  ⟨by decide, codec_roundtrip 170 (by decide)⟩

/-- C5 (counterexample): `FlashDecoder.decodeChallenge` — one of the two
decoders the claim covers — accepts the length-8 bit sequence
[2,0,0,0,0,0,0,0] containing the value 2 outside {0,1}: it invokes the
success callback with the (out-of-range) value 256 and reports no error, so
the claim that any such sequence fails with MalformedFrame is false for it. -/
theorem decodeChallenge_accepts_invalid_bits :
    decodeChallenge [2, 0, 0, 0, 0, 0, 0, 0] = .ok 256 ∧
      ∀ e, decodeChallenge [2, 0, 0, 0, 0, 0, 0, 0] ≠ .error e := by
  constructor
  · decide
  · intro e h
    have h1 : decodeChallenge [2, 0, 0, 0, 0, 0, 0, 0] = .ok 256 := by decide
    rw [h1] at h
    exact Except.noConfusion h

/-- C5 (amended): the receiver's `decodeResponse` rejects every bit sequence
whose length is not 8 and every length-8 sequence containing an element
outside {0,1} — it reports a malformed-frame error and never invokes the
success callback; `decodeChallenge` (the superseded decoder) rejects only
wrong lengths. -/
theorem decode_rejects_malformed (bits : List Nat)
    (hbad : bits.length ≠ 8 ∨ ∃ b ∈ bits, b ≠ 0 ∧ b ≠ 1) :
    (∃ e, decodeResponse bits = .error e) ∧ (∀ n, decodeResponse bits ≠ .ok n) ∧
      (bits.length ≠ 8 → ∃ e, decodeChallenge bits = .error e) := by
  have herr : ∃ e, decodeResponse bits = .error e := by
    by_cases hlen : bits.length = 8
    · rcases hbad with hl | hb
      · exact absurd hlen hl
      · rcases firstBadBit_isSome bits hb 0 with ⟨⟨i, v⟩, hp⟩
        exact ⟨.invalidBitValue i v, by simp [decodeResponse, hlen, hp]⟩
    · exact ⟨.invalidBitCount bits.length, by simp [decodeResponse, hlen]⟩
  refine ⟨herr, ?_, ?_⟩
  · rcases herr with ⟨e, he⟩
    intro n hn
    rw [hn] at he
    exact Except.noConfusion he
  · intro hl
    exact ⟨.invalidBitCount bits.length, by simp [decodeChallenge, hl]⟩

/-- Witness for `decode_rejects_malformed` at the length-3 sequence [0,0,0]. -/
theorem decode_rejects_malformed_witness :
    (([0, 0, 0] : List Nat).length ≠ 8 ∨ ∃ b ∈ ([0, 0, 0] : List Nat), b ≠ 0 ∧ b ≠ 1) ∧
      (∃ e, decodeResponse [0, 0, 0] = .error e) :=
  ⟨by decide, (decode_rejects_malformed [0, 0, 0] (by decide)).1⟩

/-- C3 (counterexample): in DETECT_END, a tick that is still ON past
END_DURATION × 1.5 reports the framing-timeout error but puts the receiver in
the ordinary initial IDLE state (via stop()), identical to a fresh
receiver's state — the code has no distinct terminal FAILED state. -/
theorem detect_end_timeout_goes_idle :
    (animate endWaitReceiver 1600 90).2 = [.error .endNotDetected] ∧
      (animate endWaitReceiver 1600 90).1.state = RxState.IDLE ∧
      (animate endWaitReceiver 1600 90).1.state = mkReceiver.state := by
  decide

/-- C3 (amended): in DETECT_END, any tick whose sample classifies ON with
elapsed time since the last state change exceeding END_DURATION × 1.5 fires
the FramingTimeout error exactly once and stops the receiver back to IDLE
(the code folds the spec's FAILED state into IDLE); from there every further
tick fires no callback and the state remains IDLE until an explicit new
start(). -/
theorem detect_end_timeout (r : Receiver) (now b β : ℚ)
    (hs : r.state = .DETECT_END) (hc : r.isCalibrated = true)
    (hb : r.baselineBrightness = some β) (hOn : isLightOn b β = true)
    (ht : qmul END_DURATION (mkRat 3 2) < qsub now (r.lastStateChange.getD 0)) :
    animate r now b =
        ({ stopR r with animActive := true }, [.error .endNotDetected]) ∧
      (animate r now b).1.state = RxState.IDLE ∧
      ∀ ticks, (runFrom (animate r now b).1 ticks).2 = [] ∧
        (runFrom (animate r now b).1 ticks).1.state = RxState.IDLE := by
  have hmiss : ¬(r.isCalibrated = false ∨ r.baselineBrightness = none) := by
    simp [hc, hb]
  have hnot1 : ¬(isLightOn b (r.baselineBrightness.getD 0) = false ∧
      END_DURATION ≤ qsub now (r.lastStateChange.getD 0)) := by
    rw [hb]
    simp [hOn]
  have hyes : isLightOn b (r.baselineBrightness.getD 0) = true ∧
      qmul END_DURATION (mkRat 3 2) < qsub now (r.lastStateChange.getD 0) := by
    rw [hb]
    exact ⟨hOn, ht⟩
  have hstep : animate r now b =
      ({ stopR r with animActive := true }, [.error .endNotDetected]) := by
    simp only [animate, hs]
    rw [if_neg hmiss, if_neg hnot1, if_pos hyes]
  refine ⟨hstep, by rw [hstep]; rfl, fun ticks => ?_⟩
  rw [hstep]
  exact runFrom_idle _ rfl ticks

/-- Witness for `detect_end_timeout`: the concrete DETECT_END receiver above,
ticked at t = 1600 (elapsed 1600 > 1500) with brightness 90 against
baseline 20. -/
theorem detect_end_timeout_witness :
    isLightOn 90 20 = true ∧
      qmul END_DURATION (mkRat 3 2) < qsub 1600 (endWaitReceiver.lastStateChange.getD 0) ∧
      (animate endWaitReceiver 1600 90 =
          ({ stopR endWaitReceiver with animActive := true }, [.error .endNotDetected]) ∧
        (animate endWaitReceiver 1600 90).1.state = RxState.IDLE ∧
        ∀ ticks, (runFrom (animate endWaitReceiver 1600 90).1 ticks).2 = [] ∧
          (runFrom (animate endWaitReceiver 1600 90).1 ticks).1.state = RxState.IDLE) :=
  ⟨by decide, by decide,
    detect_end_timeout endWaitReceiver 1600 90 20 rfl rfl rfl (by decide) (by decide)⟩

/-- C4 (counterexample): in DETECT_START, a tick that finds no calibration
state transitions silently back to CALIBRATE — no BaselineLost error, no
failure state — so the claim is false for AWAITING_START. -/
theorem detect_start_no_baseline_error :
    (animate startWaitReceiver 100 20).2 = [] ∧
      (animate startWaitReceiver 100 20).1.state = RxState.CALIBRATE := by
  decide

/-- C4 (amended): a missing baseline (calibration flag unset or baseline
value absent) makes READ_BITS and DETECT_END fire their BaselineLost error
and stop the receiver to IDLE (the code's stand-in for the spec's FAILED),
while DETECT_START instead falls back to CALIBRATE silently with no error. -/
theorem baseline_lost_behavior (r : Receiver) (now b : ℚ)
    (hmiss : r.isCalibrated = false ∨ r.baselineBrightness = none) :
    (r.state = .READ_BITS →
        animate r now b =
          ({ stopR r with animActive := true }, [.error .baselineLostBits]) ∧
        (animate r now b).1.state = RxState.IDLE) ∧
      (r.state = .DETECT_END →
        animate r now b =
          ({ stopR r with animActive := true }, [.error .baselineLostEnd]) ∧
        (animate r now b).1.state = RxState.IDLE) ∧
      (r.state = .DETECT_START →
        (animate r now b).1.state = RxState.CALIBRATE ∧ (animate r now b).2 = []) := by
  refine ⟨fun hs => ?_, fun hs => ?_, fun hs => ?_⟩ <;>
    · have hstep := hs
      simp only [animate, hs]
      rw [if_pos hmiss]
      exact ⟨rfl, rfl⟩

/-- Witness for `baseline_lost_behavior`: a READ_BITS receiver whose
calibration flag is unset, ticked at t = 10. -/
theorem baseline_lost_behavior_witness :
    (bitsLostReceiver.isCalibrated = false ∨ bitsLostReceiver.baselineBrightness = none) ∧
      (animate bitsLostReceiver 10 20 =
          ({ stopR bitsLostReceiver with animActive := true }, [.error .baselineLostBits]) ∧
        (animate bitsLostReceiver 10 20).1.state = RxState.IDLE) :=
  ⟨Or.inl rfl, (baseline_lost_behavior bitsLostReceiver 10 20 (Or.inl rfl)).1 rfl⟩

/-- C6: the differential light-level classifier is a pure function of
(brightness, baseline); it returns true iff brightness - baseline is at least
BRIGHTNESS_CHANGE_THRESHOLD, hence for a fixed baseline it is false strictly
below baseline + threshold, true at or above that boundary (inclusive), and
monotone in brightness. -/
theorem classifier_differential (b base b2 : ℚ) :
    (isLightOn b base = true ↔ BRIGHTNESS_CHANGE_THRESHOLD ≤ b - base) ∧
      (b < base + BRIGHTNESS_CHANGE_THRESHOLD → isLightOn b base = false) ∧
      (base + BRIGHTNESS_CHANGE_THRESHOLD ≤ b → isLightOn b base = true) ∧
      (b ≤ b2 → isLightOn b base = true → isLightOn b2 base = true) := by
  refine ⟨?_, ?_, ?_, ?_⟩
  · simp [isLightOn, qsub_eq]
  · intro h
    simp only [isLightOn, qsub_eq, decide_eq_false_iff_not, not_le]
    linarith
  · intro h
    simp only [isLightOn, qsub_eq, decide_eq_true_eq]
    linarith
  · intro h12 h1
    simp only [isLightOn, qsub_eq, decide_eq_true_eq] at h1 ⊢
    linarith

/-- Witness for `classifier_differential` at brightness 90, baseline 20,
second brightness 100. -/
theorem classifier_differential_witness :
    (isLightOn 90 20 = true ↔ BRIGHTNESS_CHANGE_THRESHOLD ≤ 90 - 20) ∧
      ((90 : ℚ) < 20 + BRIGHTNESS_CHANGE_THRESHOLD → isLightOn 90 20 = false) ∧
      ((20 : ℚ) + BRIGHTNESS_CHANGE_THRESHOLD ≤ 90 → isLightOn 90 20 = true) ∧
      ((90 : ℚ) ≤ 100 → isLightOn 90 20 = true → isLightOn 100 20 = true) :=
  classifier_differential 90 20 100

/-- C9: `reset()` is total (the model is a total function, mirroring that the
JS body performs only assignments and an idempotent cancelAnimationFrame, so
it cannot throw), always leaves the receiver in IDLE with no baseline, no
calibration flag, and empty bit frame, and is idempotent — repeated calls
with no start() in between leave exactly the same state. -/
theorem reset_idempotent (r : Receiver) :
    (resetR r).state = RxState.IDLE ∧ (resetR r).baselineBrightness = none ∧
      (resetR r).isCalibrated = false ∧ (resetR r).bits = [] ∧
      (resetR r).baselineSamples = [] ∧ (resetR r).currentBitIndex = 0 ∧
      resetR (resetR r) = resetR r :=
  ⟨rfl, rfl, rfl, rfl, rfl, rfl, rfl⟩

/-- Witness for `reset_idempotent` at a freshly constructed receiver. -/
theorem reset_idempotent_witness :
    (resetR mkReceiver).state = RxState.IDLE ∧
      (resetR mkReceiver).baselineBrightness = none ∧
      (resetR mkReceiver).isCalibrated = false ∧ (resetR mkReceiver).bits = [] ∧
      (resetR mkReceiver).baselineSamples = [] ∧
      (resetR mkReceiver).currentBitIndex = 0 ∧
      resetR (resetR mkReceiver) = resetR mkReceiver :=
  reset_idempotent mkReceiver

/-- C7: for every v in [0,255] the transmitter builds exactly 10 (symbol,
duration) steps — (ON, startDurationMs), then the 8 bits of `numberToBits v`
MSB first (ON for 1, OFF for 0) at bitDurationMs each, then
(OFF, endDurationMs) — and during playback every tick advances the current
step by at most one, so step order is preserved with no skipping. -/
theorem transmit_sequence_spec (v : Nat) (hv : v < 256) :
    ((buildSequence v).length = 10 ∧
      (buildSequence v)[0]? = some (Color.white, START_DURATION) ∧
      (∀ i, i < 8 → (buildSequence v)[i + 1]? =
        some ((if (numberToBits v)[i]? = some 1 then Color.white else Color.black),
          BIT_DURATION)) ∧
      (buildSequence v)[9]? = some (Color.black, END_DURATION)) ∧
    ∀ s : Sender, ∀ ts : ℚ,
      (senderTick s ts).1.currentStep = s.currentStep ∨
        (senderTick s ts).1.currentStep = s.currentStep + 1 :=
  ⟨buildSequence_shape v hv, fun s ts => sender_step_no_skip s ts⟩

/-- Witness for `transmit_sequence_spec` at v = 170. -/
theorem transmit_sequence_spec_witness :
    (170 : Nat) < 256 ∧
      (((buildSequence 170).length = 10 ∧
        (buildSequence 170)[0]? = some (Color.white, START_DURATION) ∧
        (∀ i, i < 8 → (buildSequence 170)[i + 1]? =
          some ((if (numberToBits 170)[i]? = some 1 then Color.white else Color.black),
            BIT_DURATION)) ∧
        (buildSequence 170)[9]? = some (Color.black, END_DURATION)) ∧
      ∀ s : Sender, ∀ ts : ℚ,
        (senderTick s ts).1.currentStep = s.currentStep ∨
          (senderTick s ts).1.currentStep = s.currentStep + 1) :=
  ⟨by decide, transmit_sequence_spec 170 (by decide)⟩

/-- C8: for every transmit sequence and every position of the cancel call,
the run fires onComplete at most once and never after cancellation; after the
cancel the overlay is hidden and transparent (OFF/neutral), no animation
frame is pending, and any further tick timestamps produce no state change
and no callbacks. -/
theorem sender_cancellation (v : Nat) (pre post : List ℚ) :
    (runTicksS (initSender v) pre).2.count SEvent.complete ≤ 1 ∧
      (cancelS (runTicksS (initSender v) pre).1).overlayDisplay = false ∧
      (cancelS (runTicksS (initSender v) pre).1).overlayColor = none ∧
      (cancelS (runTicksS (initSender v) pre).1).animActive = false ∧
      runTicksS (cancelS (runTicksS (initSender v) pre).1) post =
        (cancelS (runTicksS (initSender v) pre).1, []) :=
  ⟨runTicksS_complete_le_one _ _, rfl, rfl, rfl, runTicksS_inactive _ rfl _⟩

/-- Witness for `sender_cancellation` at v = 170, two ticks before the cancel
and one attempted tick after it. -/
theorem sender_cancellation_witness :
    (runTicksS (initSender 170) [0, 500]).2.count SEvent.complete ≤ 1 ∧
      (cancelS (runTicksS (initSender 170) [0, 500]).1).overlayDisplay = false ∧
      (cancelS (runTicksS (initSender 170) [0, 500]).1).overlayColor = none ∧
      (cancelS (runTicksS (initSender 170) [0, 500]).1).animActive = false ∧
      runTicksS (cancelS (runTicksS (initSender 170) [0, 500]).1) [9000] =
        (cancelS (runTicksS (initSender 170) [0, 500]).1, []) :=
  sender_cancellation 170 [0, 500] [9000]

/-- C10: from start(), every reachable receiver state keeps the accumulated
bit frame at length at most 8 with every element 0 or 1; in DETECT_END (the
only state whose tick invokes decoding) the frame has length exactly 8, so
the decode's length-mismatch, bit-value and out-of-range branches never fire
from the state machine — no decode-error callback is ever emitted and every
decoded byte handed to the success callback is at most 255. -/
theorem receiver_frame_invariant (t0 : ℚ) (ticks : List (ℚ × ℚ)) :
    (runFrom (startR mkReceiver t0) ticks).1.bits.length ≤ 8 ∧
      (∀ b ∈ (runFrom (startR mkReceiver t0) ticks).1.bits, b = 0 ∨ b = 1) ∧
      ((runFrom (startR mkReceiver t0) ticks).1.state = RxState.DETECT_END →
        (runFrom (startR mkReceiver t0) ticks).1.bits.length = 8) ∧
      ∀ e ∈ (runFrom (startR mkReceiver t0) ticks).2,
        (∀ n, e = RxEvent.decoded n → n ≤ 255) ∧
        ∀ er, e = RxEvent.error er → isDecodeErr er = false := by
  obtain ⟨⟨hb, hlen, _, hde⟩, hev⟩ :=
    runFrom_inv (startR mkReceiver t0) (startR_inv mkReceiver t0) ticks
  refine ⟨hlen, fun b hbm => by have := hb b hbm; omega, hde, ?_⟩
  intro e he
  have hg := hev e he
  cases e with
  | decoded n =>
      refine ⟨fun m hm => ?_, fun er her => ?_⟩
      · cases hm
        exact hg
      · cases her
  | error er =>
      refine ⟨fun m hm => ?_, fun er2 her => ?_⟩
      · cases hm
      · cases her
        exact hg

/-- Witness for `receiver_frame_invariant` at t0 = 0 with a single
calibration tick. -/
theorem receiver_frame_invariant_witness :
    (runFrom (startR mkReceiver 0) [(0, 20)]).1.bits.length ≤ 8 ∧
      (∀ b ∈ (runFrom (startR mkReceiver 0) [(0, 20)]).1.bits, b = 0 ∨ b = 1) ∧
      ((runFrom (startR mkReceiver 0) [(0, 20)]).1.state = RxState.DETECT_END →
        (runFrom (startR mkReceiver 0) [(0, 20)]).1.bits.length = 8) ∧
      ∀ e ∈ (runFrom (startR mkReceiver 0) [(0, 20)]).2,
        (∀ n, e = RxEvent.decoded n → n ≤ 255) ∧
        ∀ er, e = RxEvent.error er → isDecodeErr er = false :=
  receiver_frame_invariant 0 [(0, 20)]

/-- C1: feeding the receiver the synthetic sample stream `c1Ticks v` — which
realizes the transmitter's built sequence exactly (brightness 90 wherever
`buildSequence v` shows white and ambient 20 otherwise, via `brightnessAt`),
classified against a stable baseline of 20 and sampled every 30 ms, i.e. 10
samples per 300 ms bit — drives the machine through CALIBRATE, DETECT_START,
READ_BITS, DETECT_END to COMPLETE and fires the success callback exactly once
with the byte v, for every v in [0,255]. -/
theorem end_to_end_framing (v : Nat) (hv : v < 256) :
    (runTrace (startR mkReceiver 0) (c1Ticks v)).2.1 = [RxEvent.decoded v] ∧
      (runTrace (startR mkReceiver 0) (c1Ticks v)).1.state = RxState.COMPLETE ∧
      RxState.CALIBRATE ∈ (runTrace (startR mkReceiver 0) (c1Ticks v)).2.2 ∧
      RxState.DETECT_START ∈ (runTrace (startR mkReceiver 0) (c1Ticks v)).2.2 ∧
      RxState.READ_BITS ∈ (runTrace (startR mkReceiver 0) (c1Ticks v)).2.2 ∧
      RxState.DETECT_END ∈ (runTrace (startR mkReceiver 0) (c1Ticks v)).2.2 ∧
      RxState.COMPLETE ∈ (runTrace (startR mkReceiver 0) (c1Ticks v)).2.2 := by
  rw [c1_run v hv]
  refine ⟨rfl, rfl, ?_, ?_, ?_, ?_, ?_⟩ <;> simp

/-- Witness for `end_to_end_framing` at v = 170 (binary 10101010). -/
theorem end_to_end_framing_witness :
    (170 : Nat) < 256 ∧
      ((runTrace (startR mkReceiver 0) (c1Ticks 170)).2.1 = [RxEvent.decoded 170] ∧
        (runTrace (startR mkReceiver 0) (c1Ticks 170)).1.state = RxState.COMPLETE ∧
        RxState.CALIBRATE ∈ (runTrace (startR mkReceiver 0) (c1Ticks 170)).2.2 ∧
        RxState.DETECT_START ∈ (runTrace (startR mkReceiver 0) (c1Ticks 170)).2.2 ∧
        RxState.READ_BITS ∈ (runTrace (startR mkReceiver 0) (c1Ticks 170)).2.2 ∧
        RxState.DETECT_END ∈ (runTrace (startR mkReceiver 0) (c1Ticks 170)).2.2 ∧
        RxState.COMPLETE ∈ (runTrace (startR mkReceiver 0) (c1Ticks 170)).2.2) :=
  ⟨by decide, end_to_end_framing 170 (by decide)⟩

end OpticalGate

